import Mathlib

/-!
Shallow embedding of the rename decision engine of the Autorename repository:
`src/utils/template_parser.py` (class `TemplateParser`) and
`src/handlers/replace.py` (`apply_replace_rules`).

Strings are modelled over `List Char`; the character classes of the Python
regexes (`\d`, `\s`, `[A-Za-z0-9]`) and the `str` case functions are modelled
over their ASCII ranges.  Every `re.search` in the source is invoked with
`re.IGNORECASE`, so all pattern matching below compares characters through
`Char.toLower`.
-/

set_option maxHeartbeats 2000000

deriving instance DecidableEq for Except

namespace AutoRename

def ciEqc (a b : Char) : Bool := a.toLower == b.toLower

def csEqc (a b : Char) : Bool := a == b

/-- The ASCII range of Python's `\s` class and of `str.strip()`. -/
def pyIsSpace (c : Char) : Bool :=
  c == ' ' || c == '\t' || c == '\n' || c == '\r' || c == '\x0b' || c == '\x0c'

/-- The separator class `[._\-\+]` used by `_clean_filename` and `_clean_title`. -/
def isSepChar (c : Char) : Bool :=
  c == '.' || c == '_' || c == '-' || c == '+'

/-- The class `[-_.]` of `_clean_result`'s final separator collapse. -/
def isDotSep (c : Char) : Bool :=
  c == '-' || c == '_' || c == '.'

/-- The class `[pi]` of the quality pattern `(\d{3,4}[pi])` (case-insensitive). -/
def isPorI (c : Char) : Bool :=
  c.toLower == 'p' || c.toLower == 'i'

/-- The class `[A-Za-z0-9]` of the release-group patterns. -/
def isAlnumAscii (c : Char) : Bool := c.isAlphanum

/-- Generic prefix test under a character comparison `eqc`. -/
def genPref (eqc : Char → Char → Bool) : List Char → List Char → Bool
  | [], _ => true
  | _ :: _, [] => false
  | p :: ps, c :: cs => eqc p c && genPref eqc ps cs

/-- Case-insensitive prefix test (all source regexes use `re.IGNORECASE`). -/
def ciPref (p s : List Char) : Bool := genPref ciEqc p s

def countWhile (p : Char → Bool) : List Char → Nat
  | [] => 0
  | c :: cs => if p c then countWhile p cs + 1 else 0

/-- Backtracking helper: try `k (lo+d)`, `k (lo+d-1)`, …, `k lo` (greedy order
    of a bounded regex repetition). -/
def tryDown (lo : Nat) (k : Nat → Option α) : Nat → Option α
  | 0 => k lo
  | d + 1 => (k (lo + d + 1)).orElse (fun _ => tryDown lo k d)

def tryRange (lo hi : Nat) (k : Nat → Option α) : Option α :=
  if hi < lo then none else tryDown lo k (hi - lo)

/-! ### A small backtracking matcher

It covers exactly the regex forms appearing in `TemplateParser.patterns`:
sequences of case-insensitive literals, greedy bounded character-class
repetitions, `\s*`-style stars, end anchors, capturing groups (never nested),
and capturing alternations of literal words. -/

/-- Items allowed inside a capturing group. -/
inductive GItem where
  | lit : List Char → GItem
  | cls : (Char → Bool) → Nat → Nat → GItem
  | plus : (Char → Bool) → GItem

/-- Top-level regex items. -/
inductive RItem where
  | lit : List Char → RItem
  | cls : (Char → Bool) → Nat → Nat → RItem
  | star : (Char → Bool) → RItem
  | grp : List GItem → RItem
  | alt : List (List Char) → RItem
  | eos : RItem

def matchG (k : List Char → Option α) : List GItem → List Char → Option α
  | [], s => k s
  | .lit t :: rest, s =>
    if ciPref t s then matchG k rest (s.drop t.length) else none
  | .cls p lo hi :: rest, s =>
    tryRange lo (min hi (countWhile p s)) (fun n => matchG k rest (s.drop n))
  | .plus p :: rest, s =>
    tryRange 1 (countWhile p s) (fun n => matchG k rest (s.drop n))

def altTry (s : List Char) (k : Nat → Option α) : List (List Char) → Option α
  | [] => none
  | t :: ts => if ciPref t s then (k t.length).orElse (fun _ => altTry s k ts) else altTry s k ts

def matchR (k : List Char → List (List Char) → Option α) :
    List RItem → List Char → List (List Char) → Option α
  | [], s, caps => k s caps
  | .lit t :: rest, s, caps =>
    if ciPref t s then matchR k rest (s.drop t.length) caps else none
  | .cls p lo hi :: rest, s, caps =>
    tryRange lo (min hi (countWhile p s)) (fun n => matchR k rest (s.drop n) caps)
  | .star p :: rest, s, caps =>
    tryRange 0 (countWhile p s) (fun n => matchR k rest (s.drop n) caps)
  | .grp g :: rest, s, caps =>
    matchG (fun s2 => matchR k rest s2 (caps ++ [s.take (s.length - s2.length)])) g s
  | .alt ts :: rest, s, caps =>
    altTry s (fun n => matchR k rest (s.drop n) (caps ++ [s.take n])) ts
  | .eos :: rest, s, caps =>
    if s.isEmpty then matchR k rest s caps else none

/-- `re.search`: try the pattern at every position, leftmost first; returns
    the match start together with the captured groups. -/
def searchGo (pat : List RItem) : Nat → List Char → Option (Nat × List (List Char))
  | i, s =>
    match matchR (fun _ caps => some caps) pat s [] with
    | some caps => some (i, caps)
    | none =>
      match s with
      | [] => none
      | _ :: cs => searchGo pat (i + 1) cs

def reSearch (pat : List RItem) (s : List Char) : Option (Nat × List (List Char)) :=
  searchGo pat 0 s

/-! ### Python string primitives -/

/-- Scanner shared by `str.replace` (with `csEqc`) and
    `re.sub(re.escape(old), …, flags=re.IGNORECASE)` (with `ciEqc`): replaces
    leftmost non-overlapping occurrences, and for an empty `old` inserts `new`
    at every position including the end, as Python does.  `fuel` is the length
    of the scanned list, which bounds the number of scanning steps. -/
def replGo (eqc : Char → Char → Bool) (old nd : List Char) : Nat → List Char → List Char
  | _, [] => if old.isEmpty then nd else []
  | 0, s => s
  | fuel + 1, c :: cs =>
    if old.isEmpty then nd ++ c :: replGo eqc old nd fuel cs
    else if genPref eqc old (c :: cs) then nd ++ replGo eqc old nd fuel (cs.drop (old.length - 1))
    else c :: replGo eqc old nd fuel cs

/-- Python `s.replace(old, new)` (case-sensitive, literal, all occurrences). -/
def pyReplace (s old nd : String) : String :=
  ⟨replGo csEqc old.data nd.data s.data.length s.data⟩

/-- One item of a parsed `re` replacement template: a literal character, or a
    reference to group 0 (the whole match, written `\g<0>`). -/
inductive TOut where
  | ch : Char → TOut
  | grp0 : TOut
deriving DecidableEq, Repr

/-- Expand a parsed replacement template at one match: group-0 references
    become the matched text `m`. -/
def expandTempl (tmpl : List TOut) (m : List Char) : List Char :=
  tmpl.foldr (fun t acc => match t with | .ch c => c :: acc | .grp0 => m ++ acc) []

/-- `re.sub(re.escape(old), …, flags=re.IGNORECASE)` with an already parsed
    replacement template: case-insensitive literal matching of `old`,
    leftmost non-overlapping occurrences, each replaced by the template
    expanded at the matched slice of the input (so `\g<0>` keeps the input's
    casing); an empty `old` matches at every position including the end, as
    Python does. -/
def replTGo (eqc : Char → Char → Bool) (old : List Char) (tmpl : List TOut) :
    Nat → List Char → List Char
  | _, [] => if old.isEmpty then expandTempl tmpl [] else []
  | 0, s => s
  | fuel + 1, c :: cs =>
    if old.isEmpty then expandTempl tmpl [] ++ c :: replTGo eqc old tmpl fuel cs
    else if genPref eqc old (c :: cs) then
      expandTempl tmpl ((c :: cs).take old.length) ++
        replTGo eqc old tmpl fuel (cs.drop (old.length - 1))
    else c :: replTGo eqc old tmpl fuel cs

def pyReplaceCI (s old : String) (tmpl : List TOut) : String :=
  ⟨replTGo ciEqc old.data tmpl s.data.length s.data⟩

/-- Does `pat` occur (under `eqc`) anywhere in the list? -/
def subScan (eqc : Char → Char → Bool) (pat : List Char) : List Char → Bool
  | [] => genPref eqc pat []
  | c :: cs => genPref eqc pat (c :: cs) || subScan eqc pat cs

/-- Case-insensitive substring test. -/
def containsCI (s pat : String) : Bool := subScan ciEqc pat.data s.data

/-- What Python's `replace` does for an empty `old`: `new` is inserted before
    every character and after the last one. -/
def insertEverywhere (nd f : String) : String :=
  ⟨nd.data ++ f.data.foldr (fun c acc => c :: (nd.data ++ acc)) []⟩

/-- `re.sub(r'\s+', ' ', s)`: collapse every whitespace run to one space. -/
def cwsGo : Bool → List Char → List Char
  | _, [] => []
  | inRun, c :: cs =>
    if pyIsSpace c then (if inRun then cwsGo true cs else ' ' :: cwsGo true cs)
    else c :: cwsGo false cs

def collapseWS (s : List Char) : List Char := cwsGo false s

/-- Python `str.strip` with an arbitrary character set. -/
def pyStripWith (p : Char → Bool) (l : List Char) : List Char :=
  ((l.dropWhile p).reverse.dropWhile p).reverse

def pyStrip (l : List Char) : List Char := pyStripWith pyIsSpace l

def isStripSep (c : Char) : Bool :=
  c == ' ' || c == '.' || c == '-' || c == '_'

/-- `re.sub(r'\[\s*\]', '', s)` and its `()`/`{}` variants: drop every
    open-bracket / whitespace-run / close-bracket span. -/
def rmPairGo (o c : Char) : Nat → List Char → List Char
  | _, [] => []
  | 0, s => s
  | fuel + 1, x :: xs =>
    if x == o then
      match xs.drop (countWhile pyIsSpace xs) with
      | y :: rest => if y == c then rmPairGo o c fuel rest else x :: rmPairGo o c fuel xs
      | [] => x :: rmPairGo o c fuel xs
    else x :: rmPairGo o c fuel xs

/-- `re.sub(r'[-_.]{2,}', '-', s)`: each run of two or more separator
    characters becomes a single dash. -/
def csepGo : Nat → List Char → List Char
  | _, [] => []
  | 0, s => s
  | fuel + 1, x :: xs =>
    if isDotSep x then
      let run := countWhile isDotSep xs
      if run == 0 then x :: csepGo fuel xs
      else '-' :: csepGo fuel (xs.drop run)
    else x :: csepGo fuel xs

/-- `pathlib.Path(f).stem` for a plain file name: the part before the last
    dot, provided that dot is neither the first nor the last character. -/
def pyStem (f : String) : String :=
  if f = "." ∨ f = ".." then ""
  else
    match f.data.reverse.findIdx? (fun c => c == '.') with
    | none => f
    | some j =>
      let i := f.data.length - 1 - j
      if 0 < i ∧ i < f.data.length - 1 then ⟨f.data.take i⟩ else f

/-- `pathlib.Path(f).suffix` for a plain file name. -/
def pySuffix (f : String) : String :=
  if f = "." ∨ f = ".." then ""
  else
    match f.data.reverse.findIdx? (fun c => c == '.') with
    | none => ""
    | some j =>
      let i := f.data.length - 1 - j
      if 0 < i ∧ i < f.data.length - 1 then ⟨f.data.drop i⟩ else ""

/-- `TemplateParser._clean_filename`: separators to spaces, collapse
    whitespace, strip. -/
def cleanFilename (f : String) : List Char :=
  pyStrip (collapseWS (f.data.map (fun c => if isSepChar c then ' ' else c)))

/-! ### The pattern tables of `TemplateParser.__init__` -/

def dC (c : Char) : Bool := c.isDigit

def seasonEpisodePats : List (List RItem) :=
  [[.lit ['s'], .grp [.cls dC 1 2], .lit ['e'], .grp [.cls dC 1 2]],
   [.lit ['s'], .grp [.cls dC 1 2], .star pyIsSpace, .lit ['e'], .grp [.cls dC 1 2]],
   [.grp [.cls dC 1 2], .lit ['x'], .grp [.cls dC 1 2]],
   [.lit "season".data, .star pyIsSpace, .grp [.cls dC 1 2], .star pyIsSpace,
    .lit "episode".data, .star pyIsSpace, .grp [.cls dC 1 2]],
   [.lit ['s'], .grp [.cls dC 1 2], .lit ['e'], .grp [.cls dC 1 2]]]

def yearPats : List (List RItem) :=
  [[.grp [.cls dC 4 4]],
   [.lit ['('], .grp [.cls dC 4 4], .lit [')']],
   [.lit ['.'], .grp [.cls dC 4 4], .lit ['.']],
   [.cls pyIsSpace 1 1, .grp [.cls dC 4 4], .cls pyIsSpace 1 1]]

def qualityPats : List (List RItem) :=
  [[.grp [.cls dC 3 4, .cls isPorI 1 1]],
   [.alt (["720p", "1080p", "1440p", "2160p", "480p", "360p"].map String.data)],
   [.alt (["HD", "FHD", "4K", "UHD", "SD"].map String.data)],
   [.alt (["BluRay", "BRRip", "DVDRip", "WEBRip", "HDTV", "WEB-DL"].map String.data)]]

def resolutionPats : List (List RItem) :=
  [[.grp [.cls dC 3 4, .lit ['x'], .cls dC 3 4]],
   [.grp [.cls dC 3 4, .lit ['p']]],
   [.alt (["720p", "1080p", "1440p", "2160p", "480p", "360p"].map String.data)]]

def codecPats : List (List RItem) :=
  [[.alt (["x264", "x265", "h264", "h265", "HEVC", "AVC", "XviD", "DivX"].map String.data)],
   [.alt (["H.264", "H.265"].map String.data)],
   [.alt (["MPEG-4", "MPEG-2"].map String.data)]]

def sourcePats : List (List RItem) :=
  [[.alt (["BluRay", "BRRip", "DVDRip", "WEBRip", "HDTV", "WEB-DL", "CAM", "TS", "TC",
           "R5", "SCR"].map String.data)],
   [.alt (["Blu-ray", "DVD", "WEB", "HDTV", "TV"].map String.data)]]

def groupPats : List (List RItem) :=
  [[.lit ['-'], .grp [.plus isAlnumAscii], .eos],
   [.lit ['.'], .grp [.plus isAlnumAscii], .eos],
   [.lit ['['], .grp [.plus isAlnumAscii], .lit [']'], .eos],
   [.lit ['{'], .grp [.plus isAlnumAscii], .lit ['}'], .eos]]

/-- The fallback season patterns of `_extract_season`. -/
def seasonAltPats : List (List RItem) :=
  [[.lit "season".data, .star pyIsSpace, .grp [.cls dC 1 2]],
   [.lit "series".data, .star pyIsSpace, .grp [.cls dC 1 2]],
   [.lit ['s'], .grp [.cls dC 1 2]],
   [.grp [.cls dC 1 2], .lit ['x'], .cls dC 1 2]]

/-- The fallback episode patterns of `_extract_episode`. -/
def episodeAltPats : List (List RItem) :=
  [[.lit "episode".data, .star pyIsSpace, .grp [.cls dC 1 2]],
   [.lit "ep".data, .star pyIsSpace, .grp [.cls dC 1 2]],
   [.lit ['e'], .grp [.cls dC 1 2]],
   [.cls dC 1 2, .lit ['x'], .grp [.cls dC 1 2]]]

/-- Loop over an ordered pattern table, first match wins. -/
def firstSearch : List (List RItem) → List Char → Option (Nat × List (List Char))
  | [], _ => none
  | p :: ps, s =>
    match reSearch p s with
    | some r => some r
    | none => firstSearch ps s

/-- `int` on a captured digit string. -/
def digitsToNat (l : List Char) : Nat :=
  l.foldl (fun a c => a * 10 + (c.toNat - '0'.toNat)) 0

def group1 (caps : List (List Char)) : List Char := caps.head?.getD []

def group2 (caps : List (List Char)) : List Char := (caps.drop 1).head?.getD []

/-- Python's `f"{n:02d}"` for the values captured by `\d{1,2}`. -/
def pad2 (n : Nat) : String := if n < 10 then "0" ++ toString n else toString n

/-! ### The per-field extractors of `TemplateParser` -/

/-- `TemplateParser._clean_title`. -/
def cleanTitle (t : List Char) : String :=
  let t1 := collapseWS (t.map (fun c => if isSepChar c then ' ' else c))
  let t2 :=
    (let tryA := fun (w : List Char) =>
      if ciPref w t1 then
        let r := t1.drop w.length
        let n := countWhile pyIsSpace r
        if n == 0 then none else some (r.drop n)
      else none
    ((tryA "the".data).orElse (fun _ =>
      (tryA "a".data).orElse (fun _ => tryA "an".data))).getD t1)
  ⟨pyStrip t2⟩

/-- The per-table loop of `_extract_title`: take the text before the first
    match, but ignore a match whose prefix strips to the empty string. -/
def titleLoop (s : List Char) : List (List RItem) → Option String
  | [] => none
  | p :: ps =>
    match reSearch p s with
    | some (i, _) =>
      let t := pyStrip (s.take i)
      if t.isEmpty then titleLoop s ps else some (cleanTitle t)
    | none => titleLoop s ps

def extract_title (s : List Char) : String :=
  match titleLoop s seasonEpisodePats with
  | some t => t
  | none =>
    match titleLoop s yearPats with
    | some t => t
    | none =>
      match titleLoop s qualityPats with
      | some t => t
      | none => cleanTitle s

def extract_season (s : List Char) : String :=
  match firstSearch seasonEpisodePats s with
  | some (_, caps) => "S" ++ pad2 (digitsToNat (group1 caps))
  | none =>
    match firstSearch seasonAltPats s with
    | some (_, caps) => "S" ++ pad2 (digitsToNat (group1 caps))
    | none => ""

def extract_episode (s : List Char) : String :=
  match firstSearch seasonEpisodePats s with
  | some (_, caps) => "E" ++ pad2 (digitsToNat (group2 caps))
  | none =>
    match firstSearch episodeAltPats s with
    | some (_, caps) => "E" ++ pad2 (digitsToNat (group1 caps))
    | none => ""

/-- `_extract_year`: a matched value is kept only inside `[1900, 2100]`;
    otherwise the next pattern of the table is tried. -/
def yearLoop (s : List Char) : List (List RItem) → String
  | [] => ""
  | p :: ps =>
    match reSearch p s with
    | some (_, caps) =>
      let y := digitsToNat (group1 caps)
      if 1900 ≤ y ∧ y ≤ 2100 then toString y else yearLoop s ps
    | none => yearLoop s ps

def extract_year (s : List Char) : String := yearLoop s yearPats

/-- `dict.get(k, k)` on the normalization tables. -/
def lookupD (m : List (String × String)) (k : String) : String :=
  ((m.find? (fun p => p.1 == k)).map Prod.snd).getD k

def quality_map : List (String × String) :=
  [("HD", "720p"), ("FHD", "1080p"), ("4K", "2160p"), ("UHD", "2160p"), ("SD", "480p"),
   ("BLUYRAY", "BluRay"), ("BRRIP", "BRRip"), ("DVDRIP", "DVDRip"), ("WEBRIP", "WEBRip"),
   ("WEB-DL", "WEB-DL")]

def codec_map : List (String × String) :=
  [("H.264", "H264"), ("H.265", "H265"), ("HEVC", "H265"), ("AVC", "H264"),
   ("MPEG-4", "MP4"), ("MPEG-2", "MP2")]

def source_map : List (String × String) :=
  [("Blu-ray", "BluRay"), ("DVD", "DVDRip"), ("WEB", "WEB-DL"), ("TV", "HDTV")]

def extract_quality (s : List Char) : String :=
  match firstSearch qualityPats s with
  | some (_, caps) => lookupD quality_map ⟨(group1 caps).map Char.toUpper⟩
  | none => ""

def extract_resolution (s : List Char) : String :=
  match firstSearch resolutionPats s with
  | some (_, caps) => ⟨group1 caps⟩
  | none => ""

def extract_codec (s : List Char) : String :=
  match firstSearch codecPats s with
  | some (_, caps) => lookupD codec_map ⟨(group1 caps).map Char.toUpper⟩
  | none => ""

def extract_source (s : List Char) : String :=
  match firstSearch sourcePats s with
  | some (_, caps) => lookupD source_map ⟨group1 caps⟩
  | none => ""

def extract_group (s : List Char) : String :=
  match firstSearch groupPats s with
  | some (_, caps) => ⟨group1 caps⟩
  | none => ""

def extract_extension (s : List Char) : String := pySuffix ⟨s⟩

/-! ### TokenSet and extraction -/

structure TokenSet where
  title : String
  season : String
  episode : String
  year : String
  quality : String
  resolution : String
  codec : String
  source : String
  group : String
  extension : String
deriving DecidableEq, Repr

/-- `extracted_values.get(var, '')`. -/
def TokenSet.get (ts : TokenSet) (name : String) : String :=
  if name = "title" then ts.title
  else if name = "season" then ts.season
  else if name = "episode" then ts.episode
  else if name = "year" then ts.year
  else if name = "quality" then ts.quality
  else if name = "resolution" then ts.resolution
  else if name = "codec" then ts.codec
  else if name = "source" then ts.source
  else if name = "group" then ts.group
  else if name = "extension" then ts.extension
  else ""

/-- `TemplateParser._extract_all_values`: every extractor runs on the cleaned
    name (separators already turned into spaces). -/
def extractAllValues (f : String) : TokenSet :=
  let s := cleanFilename f
  { title := extract_title s
    season := extract_season s
    episode := extract_episode s
    year := extract_year s
    quality := extract_quality s
    resolution := extract_resolution s
    codec := extract_codec s
    source := extract_source s
    group := extract_group s
    extension := extract_extension s }

/-- The spec-level `extract`: strip the extension, then run
    `_extract_all_values` as `TemplateParser.parse` does. -/
def extract (f : String) : TokenSet := extractAllValues (pyStem f)

/-- The key set of `TemplateParser.variables`, in insertion order. -/
def variableNames : List String :=
  ["title", "season", "episode", "year", "quality", "resolution", "codec", "source",
   "group", "extension"]

/-! ### Rendering -/

/-- Python `str.title()` over ASCII letters. -/
def pyTitleGo : Bool → List Char → List Char
  | _, [] => []
  | prevAlpha, c :: cs =>
    if c.isAlpha then (if prevAlpha then c.toLower else c.toUpper) :: pyTitleGo true cs
    else c :: pyTitleGo false cs

def pyTitle (s : String) : String := ⟨pyTitleGo false s.data⟩

def pyZfill4 (s : String) : String :=
  if s.data.length < 4 then ⟨List.replicate (4 - s.data.length) '0' ++ s.data⟩ else s

def pyIsDigitStr (s : String) : Bool := !s.data.isEmpty && s.data.all Char.isDigit

/-- `TemplateParser._format_value`. -/
def formatValue (name value : String) : String :=
  if value = "" then ""
  else if name = "season" || name = "episode" then value
  else if name = "title" then pyTitle value
  else if name = "year" then (if pyIsDigitStr value then pyZfill4 value else value)
  else value

/-- `re.findall(r'\{([^}]+)\}', tpl)`: leftmost non-overlapping matches. -/
def findVarsGo : Nat → List Char → List (List Char)
  | _, [] => []
  | 0, _ => []
  | fuel + 1, c :: cs =>
    if c == '{' then
      let run := cs.takeWhile (fun d => d ≠ '}')
      match cs.drop run.length with
      | '}' :: rest => if run.isEmpty then findVarsGo fuel cs else run :: findVarsGo fuel rest
      | _ => findVarsGo fuel cs
    else findVarsGo fuel cs

def findVars (tpl : String) : List String :=
  (findVarsGo tpl.data.length tpl.data).map (fun l => ⟨l⟩)

/-- The substitution loop of `TemplateParser.parse`: each found variable is
    replaced everywhere in the current result, known ones by their formatted
    value and unknown ones by the empty string. -/
def substituteVars (tpl : String) (ts : TokenSet) : String :=
  (findVars tpl).foldl
    (fun res var =>
      if variableNames.contains var then
        pyReplace res ("\x7b" ++ var ++ "\x7d") (formatValue var (ts.get var))
      else pyReplace res ("\x7b" ++ var ++ "\x7d") "")
    tpl

/-- `TemplateParser._clean_result`. -/
def cleanResult (s : String) : String :=
  let r1 := collapseWS s.data
  let r2 := pyStripWith isStripSep r1
  let r3 := rmPairGo '[' ']' r2.length r2
  let r4 := rmPairGo '(' ')' r3.length r3
  let r5 := rmPairGo '{' '}' r4.length r4
  let r6 := csepGo r5.length r5
  ⟨pyStrip r6⟩

/-- The spec-level `render(template, tokens, extension)`: substitution,
    cleanup and unconditional extension reattachment for a non-empty
    extension, exactly the tail of `TemplateParser.parse`. -/
def render (tpl : String) (ts : TokenSet) (ext : String) : String :=
  let result := cleanResult (substituteVars tpl ts)
  if ext = "" then result else result ++ ext

/-- The cleaned substituted string of `parse` before the extension is
    reattached. -/
def cleanedSubst (tpl f : String) : String :=
  cleanResult (substituteVars tpl (extract f))

/-- The canonical sample filename of `validate_template`. -/
def testFilename : String := "Test.Movie.2024.1080p.BluRay.x264-GROUP.mkv"

namespace TemplateParser

/-- `TemplateParser(tpl).parse(filename)`. -/
def parse (tpl filename : String) : String :=
  render tpl (extract filename) (pySuffix filename)

/-- `TemplateParser.get_available_variables`, as an ordered association list. -/
def get_available_variables : List (String × String) :=
  [("title", "Original filename without extension"),
   ("season", "Season number (S01, S02, etc.)"),
   ("episode", "Episode number (E01, E02, etc.)"),
   ("year", "Year from filename (2024, 2025, etc.)"),
   ("quality", "Quality indicator (1080p, 720p, BluRay, etc.)"),
   ("resolution", "Video resolution (1920x1080, 1280x720, etc.)"),
   ("codec", "Video codec (H264, H265, x264, etc.)"),
   ("source", "Source type (BluRay, WEB-DL, HDTV, etc.)"),
   ("group", "Release group name"),
   ("extension", "File extension (.mkv, .mp4, etc.)")]

/-- `TemplateParser(tpl).validate_template(tpl)` — handlers always construct
    the parser with the template being validated. -/
def validate_template (tpl : String) : Bool × String :=
  if tpl.data.count '{' ≠ tpl.data.count '}' then (false, "Unbalanced braces in template")
  else
    match (findVars tpl).find? (fun v => !(variableNames.contains v)) with
    | some v => (false, "Unknown variable: " ++ v)
    | none =>
      let result := parse tpl testFilename
      if result = "" then (false, "Template produces empty result")
      else (true, "Template is valid")

end TemplateParser

/-! ### The replace-rule engine of `src/handlers/replace.py` -/

structure ReplaceRule where
  old : String
  new : String
  enabled : Bool
  case_sensitive : Bool
deriving DecidableEq, Repr

/-- The escape letters of Python `re` replacement templates. -/
def templEscapes : List (Char × Char) :=
  [('a', '\x07'), ('b', '\x08'), ('f', '\x0c'), ('n', '\n'), ('r', '\x0d'),
   ('t', '\t'), ('v', '\x0b')]

def isOctalDigit (c : Char) : Bool := '0' ≤ c && c ≤ '7'

def octD (c : Char) : Nat := c.toNat - '0'.toNat

/-- Python's parsing of a string replacement argument of `re.sub` against the
    zero-group pattern `re.escape(old)`: the letter escapes and `\\` expand to
    literal characters; `\g<0>` (for any plain digit string naming group 0)
    is a reference to the whole match; `\0` with up to two further octal
    digits and `\ooo` with three octal digits are octal character escapes,
    except that a three-digit value above `0o377` is an error; any other
    digit sequence is a numeric group reference, always an invalid-group
    error here because the escaped-literal pattern has no groups, as are the
    other `\g<…>` forms; any other ASCII letter is a bad escape, a trailing
    backslash is an error, and a backslash before a non-alphanumeric
    character stays as is.  Errors are raised before any matching happens,
    which the surrounding `try` of `apply_replace_rules` turns into returning
    the original filename. -/
def parseTemplGo : Nat → List Char → Except Unit (List TOut)
  | _, [] => .ok []
  | 0, _ => .error ()
  | fuel + 1, '\\' :: tl =>
    match tl with
    | [] => .error ()
    | c :: rest =>
      if c == '\\' then (fun l => .ch '\\' :: l) <$> parseTemplGo fuel rest
      else if c == 'g' then
        match rest with
        | '<' :: tl1 =>
          let name := tl1.takeWhile (fun d => d ≠ '>')
          match tl1.drop name.length with
          | '>' :: tl2 =>
            if !name.isEmpty && name.all Char.isDigit && digitsToNat name == 0 then
              (fun l => .grp0 :: l) <$> parseTemplGo fuel tl2
            else .error ()
          | _ => .error ()
        | _ => .error ()
      else
        match templEscapes.find? (fun p => p.1 == c) with
        | some p => (fun l => .ch p.2 :: l) <$> parseTemplGo fuel rest
        | none =>
          if c == '0' then
            match rest with
            | [] => .ok [.ch '\x00']
            | d1 :: tl1 =>
              if isOctalDigit d1 then
                match tl1 with
                | [] => .ok [.ch (Char.ofNat (octD d1))]
                | d2 :: tl2 =>
                  if isOctalDigit d2 then
                    (fun l => .ch (Char.ofNat (octD d1 * 8 + octD d2)) :: l) <$>
                      parseTemplGo fuel tl2
                  else (fun l => .ch (Char.ofNat (octD d1)) :: l) <$> parseTemplGo fuel tl1
              else (fun l => .ch '\x00' :: l) <$> parseTemplGo fuel rest
          else if c.isDigit then
            match rest with
            | d2 :: d3 :: tl2 =>
              if isOctalDigit c && isOctalDigit d2 && isOctalDigit d3 then
                let v := octD c * 64 + octD d2 * 8 + octD d3
                if v > 255 then .error ()
                else (fun l => .ch (Char.ofNat v) :: l) <$> parseTemplGo fuel tl2
              else .error ()
            | _ => .error ()
          else if c.isAlpha then .error ()
          else (fun l => .ch '\\' :: .ch c :: l) <$> parseTemplGo fuel rest
  | fuel + 1, c :: rest => (fun l => .ch c :: l) <$> parseTemplGo fuel rest

def parseTemplateGo (nd : List Char) : Except Unit (List TOut) :=
  parseTemplGo nd.length nd

/-- One iteration of the rule loop in `apply_replace_rules`; an invalid
    replacement template for a case-insensitive rule is the exception path. -/
def applyRuleE (res : String) (r : ReplaceRule) : Except Unit String :=
  if !r.enabled then .ok res
  else if r.case_sensitive then .ok (pyReplace res r.old r.new)
  else
    match parseTemplateGo r.new.data with
    | .error e => .error e
    | .ok tmpl => .ok (pyReplaceCI res r.old tmpl)

/-- The whole rule loop inside the `try` of `apply_replace_rules`. -/
def applyRulesGo (res : String) : List ReplaceRule → Except Unit String
  | [] => .ok res
  | r :: rs =>
    match applyRuleE res r with
    | .error e => .error e
    | .ok res2 => applyRulesGo res2 rs

/-- `apply_replace_rules`: the `except` branch returns the original filename. -/
def apply_replace_rules (filename : String) (rules : List ReplaceRule) : String :=
  match applyRulesGo filename rules with
  | .ok r => r
  | .error _ => filename

/-! ## Helper lemmas -/

theorem strEta (s : String) : (⟨s.data⟩ : String) = s := rfl

theorem strAppendData (a b : String) : (a ++ b).data = a.data ++ b.data := rfl

theorem emptyAppend (s : String) : "" ++ s = s := by
  cases s with
  | mk d => rfl

theorem appendNeEmpty (a b : String) (h : b ≠ "") : a ++ b ≠ "" := by
  intro hc
  have hd : a.data ++ b.data = ([] : List Char) := by
    have h2 := congrArg String.data hc
    simpa [strAppendData] using h2
  have hb : b.data = [] := (List.append_eq_nil.mp hd).2
  apply h
  cases b with
  | mk d => cases hb; rfl

theorem unknownMsgNe (v : String) :
    "Unknown variable: " ++ v ≠ "Template produces empty result" := by
  intro h
  have h1 : ("Unknown variable: " ++ v).data.head? = some 'U' := by
    cases v with
    | mk d => rfl
  rw [h] at h1
  have h2 : ("Template produces empty result" : String).data.head? = some 'T' := rfl
  exact absurd (h1.symm.trans h2) (by decide)

theorem replGo_nil_old (eqc : Char → Char → Bool) (nd : List Char) :
    ∀ (s : List Char) (fuel : Nat), s.length ≤ fuel →
      replGo eqc [] nd fuel s = nd ++ s.foldr (fun c acc => c :: (nd ++ acc)) [] := by
  intro s
  induction s with
  | nil =>
    intro fuel _
    cases fuel <;> simp [replGo]
  | cons c cs ih =>
    intro fuel hf
    cases fuel with
    | zero => simp at hf
    | succ n =>
      have hcs : cs.length ≤ n := by simpa using hf
      simp [replGo, ih n hcs]

theorem subScan_cons (eqc : Char → Char → Bool) (pat : List Char) (c : Char) (cs : List Char) :
    subScan eqc pat (c :: cs) = (genPref eqc pat (c :: cs) || subScan eqc pat cs) := rfl

theorem replTGo_no_occ (eqc : Char → Char → Bool) (o : Char) (os : List Char)
    (tmpl : List TOut) :
    ∀ (fuel : Nat) (s : List Char), s.length ≤ fuel →
      subScan eqc (o :: os) s = false → replTGo eqc (o :: os) tmpl fuel s = s := by
  intro fuel
  induction fuel with
  | zero =>
    intro s hs _
    cases s with
    | nil => simp [replTGo]
    | cons c cs => simp at hs
  | succ n ih =>
    intro s hs hsub
    cases s with
    | nil => simp [replTGo]
    | cons c cs =>
      rw [subScan_cons] at hsub
      have h1 : genPref eqc (o :: os) (c :: cs) = false := by
        cases hp : genPref eqc (o :: os) (c :: cs) <;> simp [hp] at hsub ⊢
      have h2 : subScan eqc (o :: os) cs = false := by
        cases hp : subScan eqc (o :: os) cs <;> simp [hp] at hsub ⊢
      have hcs : cs.length ≤ n := by simpa using hs
      simp [replTGo, h1, ih cs hcs h2]

theorem yearLoop_cases (s : List Char) :
    ∀ pats, yearLoop s pats = "" ∨
      ∃ n : Nat, 1900 ≤ n ∧ n ≤ 2100 ∧ yearLoop s pats = toString n := by
  intro pats
  induction pats with
  | nil => exact Or.inl rfl
  | cons p ps ih =>
    cases h : reSearch p s with
    | none => simpa [yearLoop, h] using ih
    | some r =>
      obtain ⟨i, caps⟩ := r
      simp only [yearLoop, h]
      split_ifs with hy
      · exact Or.inr ⟨digitsToNat (group1 caps), hy.1, hy.2, rfl⟩
      · exact ih

theorem parse_ne_empty (tpl : String) : TemplateParser.parse tpl testFilename ≠ "" := by
  have he : pySuffix testFilename = ".mkv" := by decide
  show (render tpl (extract testFilename) (pySuffix testFilename)) ≠ ""
  rw [render, he]
  rw [if_neg (by decide : ¬ (".mkv" : String) = "")]
  exact appendNeEmpty _ _ (by decide)

theorem strNeEmptyData (s : String) (h : s ≠ "") : ∃ o os, s.data = o :: os := by
  cases s with
  | mk d =>
    cases d with
    | nil => exact absurd rfl h
    | cons o os => exact ⟨o, os, rfl⟩

/-! ## The claims -/

/-- Claim C1 (corrected: counterexample): on the spec's Scenario 1 filename
`Game.of.Thrones.S01E01.1080p.BluRay.x264-GROUP.mkv` the extractor does not
produce the values the spec lists: the quality is not `1080p` (the code
uppercases the matched text), the codec is not `H264` (`x264` uppercases to
`X264`, which the normalization map does not contain), and the group is not
`GROUP` (group extraction runs on the cleaned name in which the `-` separator
has already become a space). -/
theorem c1_spec_counterexample :
    (extract "Game.of.Thrones.S01E01.1080p.BluRay.x264-GROUP.mkv").quality ≠ "1080p" ∧
      (extract "Game.of.Thrones.S01E01.1080p.BluRay.x264-GROUP.mkv").codec ≠ "H264" ∧
      (extract "Game.of.Thrones.S01E01.1080p.BluRay.x264-GROUP.mkv").group ≠ "GROUP" :=
  ⟨by decide, by decide, by decide⟩

/-- Claim C1 (corrected: amended claim): extraction on
`Game.of.Thrones.S01E01.1080p.BluRay.x264-GROUP.mkv` yields season `S01`,
episode `E01`, quality `1080P`, source `BluRay`, codec `X264`, an empty group
(the hyphen-anchored group pattern cannot match the cleaned name), and a title
that renders as `Game Of Thrones` after title-case formatting. -/
theorem c1_amended :
    (extract "Game.of.Thrones.S01E01.1080p.BluRay.x264-GROUP.mkv").season = "S01" ∧
      (extract "Game.of.Thrones.S01E01.1080p.BluRay.x264-GROUP.mkv").episode = "E01" ∧
      (extract "Game.of.Thrones.S01E01.1080p.BluRay.x264-GROUP.mkv").quality = "1080P" ∧
      (extract "Game.of.Thrones.S01E01.1080p.BluRay.x264-GROUP.mkv").source = "BluRay" ∧
      (extract "Game.of.Thrones.S01E01.1080p.BluRay.x264-GROUP.mkv").codec = "X264" ∧
      (extract "Game.of.Thrones.S01E01.1080p.BluRay.x264-GROUP.mkv").group = "" ∧
      formatValue "title" (extract "Game.of.Thrones.S01E01.1080p.BluRay.x264-GROUP.mkv").title =
        "Game Of Thrones" :=
  ⟨by decide, by decide, by decide, by decide, by decide, by decide, by decide⟩

/-- Claim C2 (confirmed): extraction, rendering and rule application are total — the
model evaluates them on every input string, including the empty string and
pure punctuation — and the rule engine fails closed: either the whole rule
loop succeeds and `apply_replace_rules` returns its value, or the loop raises
(an invalid replacement template) and the original filename is returned
unchanged.  Rendering always returns the cleaned substituted string with the
extension reattached, never an error. -/
theorem c2_never_raises_fail_closed (tpl f : String) (rules : List ReplaceRule) :
    ((∃ r, applyRulesGo f rules = .ok r ∧ apply_replace_rules f rules = r) ∨
      (applyRulesGo f rules = .error () ∧ apply_replace_rules f rules = f)) ∧
    TemplateParser.parse tpl f =
      (if pySuffix f = "" then cleanedSubst tpl f else cleanedSubst tpl f ++ pySuffix f) ∧
    TemplateParser.parse "{title}" "" = "" ∧
    TemplateParser.parse "{title}" "..." = "" ∧
    apply_replace_rules "" [] = "" := by
  refine ⟨?_, rfl, by decide, by decide, rfl⟩
  cases h : applyRulesGo f rules with
  | ok r => exact Or.inl ⟨r, rfl, by simp [apply_replace_rules, h]⟩
  | error e => cases e; exact Or.inr ⟨rfl, by simp [apply_replace_rules, h]⟩

/-- Claim C3 (corrected: counterexample): rendering the template with only the
unknown placeholder `foo` against `x.pdf` returns exactly the bare
extension `.pdf` — there is no fallback to the title token or the stem. -/
theorem c3_spec_counterexample : TemplateParser.parse "{foo}" "x.pdf" = ".pdf" := by decide

/-- Claim C3 (corrected: amended claim): when the cleaned substituted string is
empty and the extension is non-empty, rendering returns exactly the bare
extension. -/
theorem c3_amended (tpl f : String) (h1 : cleanedSubst tpl f = "") (h2 : pySuffix f ≠ "") :
    TemplateParser.parse tpl f = pySuffix f := by
  show render tpl (extract f) (pySuffix f) = pySuffix f
  rw [render]
  rw [if_neg h2]
  have h1' : cleanResult (substituteVars tpl (extract f)) = "" := h1
  rw [h1', emptyAppend]

theorem c3_amended_witness :
    cleanedSubst "{foo}" "x.pdf" = "" ∧ pySuffix "x.pdf" = ".pdf" ∧
      TemplateParser.parse "{foo}" "x.pdf" = ".pdf" := by
  refine ⟨by decide, by decide, ?_⟩
  have h := c3_amended "{foo}" "x.pdf" (by decide) (by decide)
  rw [h]
  decide

/-- Claim C4 (corrected: counterexample): a rule whose `old` field is empty is not
skipped — applying it to `ab` yields `XaXbX`, so the string is affected. -/
theorem c4_spec_counterexample :
    apply_replace_rules "ab" [⟨"", "X", true, true⟩] = "XaXbX" ∧
      ("XaXbX" : String) ≠ "ab" :=
  ⟨by decide, by decide⟩

/-- Claim C4 (corrected: amended claim): an enabled case-sensitive rule with empty
`old` is applied like any other rule: it inserts `new` before every character
and after the last one, and the remaining rules still apply to its output. -/
theorem c4_amended (f nd : String) (rs : List ReplaceRule) :
    pyReplace f "" nd = insertEverywhere nd f ∧
      applyRulesGo f (⟨"", nd, true, true⟩ :: rs) =
        applyRulesGo (insertEverywhere nd f) rs ∧
      apply_replace_rules "ab" [⟨"", "X", true, true⟩, ⟨"a", "z", true, true⟩] = "XzXbX" := by
  have h1 : pyReplace f "" nd = insertEverywhere nd f := by
    show (⟨replGo csEqc [] nd.data f.data.length f.data⟩ : String) = _
    rw [replGo_nil_old csEqc nd.data f.data f.data.length (le_refl _)]
    rfl
  refine ⟨h1, ?_, by decide⟩
  simp [applyRulesGo, applyRuleE, h1]

/-- Claim C5 (corrected: counterexample): composition fails when the second rule's
replacement text is an invalid template (`\q`): the two-rule application
aborts and returns the original `ab`, while the sequential application of the
singleton lists returns `bb`. -/
theorem c5_spec_counterexample :
    apply_replace_rules "ab" [⟨"a", "b", true, true⟩, ⟨"z", "\\q", true, false⟩] = "ab" ∧
      apply_replace_rules (apply_replace_rules "ab" [⟨"a", "b", true, true⟩])
        [⟨"z", "\\q", true, false⟩] = "bb" ∧
      ("ab" : String) ≠ "bb" :=
  ⟨by decide, by decide, by decide⟩

/-- Claim C5 (corrected: amended claim): whenever applying the two-rule list
raises no exception — every reached case-insensitive rule's `new` parses as a
valid replacement template (escape sequences, octal escapes and `\g<0>`
references are all valid; only genuinely invalid templates such as `\q` or a
reference to a non-existent group raise) — composition holds:
`apply(f, [r1, r2]) = apply(apply(f, [r1]), [r2])`. -/
theorem c5_amended (f out : String) (r1 r2 : ReplaceRule)
    (h : applyRulesGo f [r1, r2] = .ok out) :
    apply_replace_rules f [r1, r2] =
      apply_replace_rules (apply_replace_rules f [r1]) [r2] := by
  cases h1 : applyRuleE f r1 with
  | error e => exfalso; simp [applyRulesGo, h1] at h
  | ok f1 =>
    have h2 : applyRulesGo f1 [r2] = .ok out := by simpa [applyRulesGo, h1] using h
    cases h3 : applyRuleE f1 r2 with
    | error e => exfalso; simp [applyRulesGo, h3] at h2
    | ok f2 => simp [apply_replace_rules, applyRulesGo, h1, h3]

theorem c5_amended_witness :
    applyRulesGo "Movie_Name"
        [(⟨"_", " ", true, true⟩ : ReplaceRule), ⟨"movie", "\\g<0>s", true, false⟩] =
      .ok "Movies Name" ∧
    apply_replace_rules "Movie_Name"
        [⟨"_", " ", true, true⟩, ⟨"movie", "\\g<0>s", true, false⟩] =
      apply_replace_rules
        (apply_replace_rules "Movie_Name" [⟨"_", " ", true, true⟩])
        [⟨"movie", "\\g<0>s", true, false⟩] :=
  ⟨by decide, c5_amended "Movie_Name" "Movies Name" _ _ (by decide)⟩

/-- Claim C6 (corrected: counterexample): a rule whose case-insensitive replacement
text is the invalid template `\q` aborts the whole application: the second,
perfectly valid enabled rule is never executed, so rule application is not a
left fold of per-rule transforms. -/
theorem c6_spec_counterexample :
    apply_replace_rules "ab" [⟨"z", "\\q", true, false⟩, ⟨"b", "c", true, true⟩] = "ab" ∧
      pyReplace "ab" "b" "c" = "ac" ∧ ("ab" : String) ≠ "ac" :=
  ⟨by decide, by decide, by decide⟩

/-- Claim C6 (corrected: amended claim): whenever the rule loop raises no exception
(every reached case-insensitive rule's `new` parses as a valid replacement
template), rule application is a left fold in list order: the head rule runs
exactly once on the current string, a disabled rule leaves it unchanged, an
enabled case-sensitive rule performs literal replacement of all occurrences
of `old`, an enabled case-insensitive rule performs case-insensitive literal
replacement of all occurrences of `old` (metacharacters are not interpreted)
by the template-expansion of `new` (escape sequences decoded; `\g<0>`
references expand to the matched text), and in particular it leaves the
string unchanged when `old` does not occur case-insensitively in it. -/
theorem c6_amended (f out : String) (r : ReplaceRule) (rs : List ReplaceRule)
    (h : applyRulesGo f (r :: rs) = .ok out) :
    ∃ f1 : String,
      applyRuleE f r = .ok f1 ∧
      applyRulesGo f1 rs = .ok out ∧
      apply_replace_rules f (r :: rs) = apply_replace_rules f1 rs ∧
      (r.enabled = false → f1 = f) ∧
      (r.enabled = true → r.case_sensitive = true → f1 = pyReplace f r.old r.new) ∧
      (r.enabled = true → r.case_sensitive = false →
        ∃ tmpl : List TOut, parseTemplateGo r.new.data = .ok tmpl ∧
          f1 = pyReplaceCI f r.old tmpl) ∧
      (r.enabled = true → r.case_sensitive = false → r.old ≠ "" →
        containsCI f r.old = false → f1 = f) := by
  cases h1 : applyRuleE f r with
  | error e => exfalso; simp [applyRulesGo, h1] at h
  | ok f1 =>
    have h2 : applyRulesGo f1 rs = .ok out := by simpa [applyRulesGo, h1] using h
    refine ⟨f1, rfl, h2, ?_, ?_, ?_, ?_, ?_⟩
    · simp [apply_replace_rules, applyRulesGo, h1, h2]
    · intro he
      simp [applyRuleE, he] at h1
      exact h1.symm
    · intro he hcs
      simp [applyRuleE, he, hcs] at h1
      exact h1.symm
    · intro he hcs
      simp [applyRuleE, he, hcs] at h1
      cases hp : parseTemplateGo r.new.data with
      | error e => rw [hp] at h1; simp at h1
      | ok t =>
        rw [hp] at h1
        simp at h1
        exact ⟨t, rfl, h1.symm⟩
    · intro he hcs hne hcont
      simp [applyRuleE, he, hcs] at h1
      cases hp : parseTemplateGo r.new.data with
      | error e => rw [hp] at h1; simp at h1
      | ok t =>
        rw [hp] at h1
        simp at h1
        rw [← h1]
        obtain ⟨o, os, ho⟩ := strNeEmptyData r.old hne
        have hcont' : subScan ciEqc (o :: os) f.data = false := by
          have : subScan ciEqc r.old.data f.data = false := hcont
          rwa [ho] at this
        show (⟨replTGo ciEqc r.old.data t f.data.length f.data⟩ : String) = f
        rw [ho, replTGo_no_occ ciEqc o os t f.data.length f.data (le_refl _) hcont']

theorem c6_amended_witness :
    applyRulesGo "xAx" [(⟨"a", "y", true, false⟩ : ReplaceRule)] = .ok "xyx" ∧
      ∃ f1 : String,
        applyRuleE "xAx" (⟨"a", "y", true, false⟩ : ReplaceRule) = .ok f1 ∧
        applyRulesGo f1 [] = .ok "xyx" ∧
        apply_replace_rules "xAx" [⟨"a", "y", true, false⟩] = apply_replace_rules f1 [] ∧
        ((⟨"a", "y", true, false⟩ : ReplaceRule).enabled = false → f1 = "xAx") ∧
        ((⟨"a", "y", true, false⟩ : ReplaceRule).enabled = true →
          (⟨"a", "y", true, false⟩ : ReplaceRule).case_sensitive = true →
          f1 = pyReplace "xAx" "a" "y") ∧
        ((⟨"a", "y", true, false⟩ : ReplaceRule).enabled = true →
          (⟨"a", "y", true, false⟩ : ReplaceRule).case_sensitive = false →
          ∃ tmpl : List TOut, parseTemplateGo ("y" : String).data = .ok tmpl ∧
            f1 = pyReplaceCI "xAx" "a" tmpl) ∧
        ((⟨"a", "y", true, false⟩ : ReplaceRule).enabled = true →
          (⟨"a", "y", true, false⟩ : ReplaceRule).case_sensitive = false →
          ("a" : String) ≠ "" → containsCI "xAx" "a" = false → f1 = "xAx") :=
  ⟨by decide, c6_amended "xAx" "xyx" ⟨"a", "y", true, false⟩ [] (by decide)⟩

/-- Claim C7 (confirmed): a template containing a placeholder whose name is not a
key of `get_available_variables` is rejected by `validate_template`, and
Scenario 5 holds exactly: validating `{title} - {unknown}` returns
`(false, "Unknown variable: unknown")`. -/
theorem c7_unknown_variable_rejected (tpl name : String)
    (h1 : name ∈ findVars tpl)
    (h2 : (TemplateParser.get_available_variables.map Prod.fst).contains name = false) :
    (TemplateParser.validate_template tpl).1 = false ∧
      TemplateParser.validate_template "{title} - {unknown}" =
        (false, "Unknown variable: unknown") := by
  refine ⟨?_, by decide⟩
  have hv : variableNames.contains name = false := by
    have hk : TemplateParser.get_available_variables.map Prod.fst = variableNames := by decide
    rw [hk] at h2
    exact h2
  simp only [TemplateParser.validate_template]
  split
  · rfl
  · split
    · rfl
    · rename_i hnone
      exfalso
      have hx := List.find?_eq_none.mp hnone name h1
      apply hx
      rw [hv]
      rfl

theorem c7_witness :
    ("unknown" ∈ findVars "{title} - {unknown}") ∧
      ((TemplateParser.get_available_variables.map Prod.fst).contains "unknown" = false) ∧
      ((TemplateParser.validate_template "{title} - {unknown}").1 = false ∧
        TemplateParser.validate_template "{title} - {unknown}" =
          (false, "Unknown variable: unknown")) :=
  ⟨by decide, by decide,
    c7_unknown_variable_rejected "{title} - {unknown}" "unknown" (by decide) (by decide)⟩

/-- Claim C8 (corrected: counterexample): rendering composed with extraction is not
idempotent: with the template `{title}` on `The.The.Matrix.mkv` the first
render produces `The Matrix.mkv`, but re-extracting and re-rendering strips
the leading article again and produces `Matrix.mkv`. -/
theorem c8_spec_counterexample :
    render "{title}" (extract (render "{title}" (extract "The.The.Matrix.mkv") ".mkv")) ".mkv" ≠
      render "{title}" (extract "The.The.Matrix.mkv") ".mkv" := by decide

/-- Claim C8 (corrected: amended claim): re-rendering reproduces the same string
whenever extracting the rendered output yields the same token set as
extracting the original filename. -/
theorem c8_amended (tpl f ext : String)
    (h : extract (render tpl (extract f) ext) = extract f) :
    render tpl (extract (render tpl (extract f) ext)) ext =
      render tpl (extract f) ext := by
  rw [h]

theorem c8_amended_witness :
    extract (render "{title}" (extract "Matrix.mkv") ".mkv") = extract "Matrix.mkv" ∧
      render "{title}" (extract (render "{title}" (extract "Matrix.mkv") ".mkv")) ".mkv" =
        render "{title}" (extract "Matrix.mkv") ".mkv" :=
  ⟨by decide, c8_amended "{title}" "Matrix.mkv" ".mkv" (by decide)⟩

/-- Claim C9 (confirmed): for every input filename the year field of the extracted
token set is either empty or the decimal representation of an integer in
`[1900, 2100]`; a matched value outside the range is never stored. -/
theorem c9_year_range_invariant (f : String) :
    (extract f).year = "" ∨
      ∃ n : Nat, 1900 ≤ n ∧ n ≤ 2100 ∧ (extract f).year = toString n :=
  yearLoop_cases (cleanFilename (pyStem f)) yearPats

/-- Claim C10 (confirmed): `validate_template` can never return
`(false, "Template produces empty result")` — parsing any template against
the canonical sample filename always reattaches `.mkv` and therefore never
produces the empty string. -/
theorem c10_empty_result_unreachable (tpl : String) :
    TemplateParser.validate_template tpl ≠ (false, "Template produces empty result") ∧
      TemplateParser.parse tpl testFilename ≠ "" := by
  refine ⟨?_, parse_ne_empty tpl⟩
  simp only [TemplateParser.validate_template]
  split
  · decide
  · split
    · rename_i v hv
      intro h
      exact unknownMsgNe v (congrArg Prod.snd h)
    · rw [if_neg (parse_ne_empty tpl)]
      decide

end AutoRename
